import Mathlib

/-!
Verification development for the OCR service in
`src/backend/ocr-service/main.py` (FastAPI + PaddleOCR, memory-optimized).

The Python source is shallowly embedded below:
* the language mapping table `LANG_MAP` and the resolver expression
  `LANG_MAP.get(lang, "en")` from `run_ocr_sync`;
* the pure extraction/aggregation part of `run_ocr_sync` (the loop over
  `result[0]`, the join of texts and the averaged confidence), over a small
  model `Py` of Python values so that the tolerance checks
  (`if line and len(line) >= 2`, `isinstance(text_info, tuple)`,
  tuple unpacking) can be rendered faithfully, with Python exceptions as
  `Except`;
* the `recognize` endpoint as a function producing both the response and the
  ordered trace of resource events (timer start, semaphore acquire/release,
  decode, engine construction, recognition, `gc.collect` hints);
* the `asyncio.Semaphore` concurrency gate as an explicit labelled transition
  system over task phases.
-/

namespace OCRService

/-! ## Language resolver (`LANG_MAP`, main.py lines 33-53, used at line 72) -/

/-- The `LANG_MAP` dictionary from main.py, as an association list (keys are
distinct, so first-match lookup agrees with Python dict lookup). -/
def LANG_MAP : List (String × String) :=
  [ ("en", "en"), ("eng", "en"),
    ("vi", "vi"), ("vie", "vi"),
    ("ch", "ch"), ("chi_sim", "ch"),
    ("chi_tra", "chinese_cht"),
    ("ja", "japan"), ("jpn", "japan"),
    ("ko", "korean"), ("kor", "korean"),
    ("fr", "french"), ("fra", "french"),
    ("de", "german"), ("deu", "german"),
    ("es", "es"), ("spa", "es"),
    ("ru", "ru"), ("rus", "ru") ]

/-- The resolver expression `LANG_MAP.get(lang, "en")` (main.py line 72). -/
def resolveLang (lang : String) : String :=
  (List.lookup lang LANG_MAP).getD "en"

/-- The set of values appearing in `LANG_MAP` (equals
`list(set(LANG_MAP.values()))` reported by the health endpoint). -/
def canonicalLanguages : List String :=
  ["en", "vi", "ch", "chinese_cht", "japan", "korean", "french", "german",
   "es", "ru"]

/-! ## Model of Python values for the raw PaddleOCR result

`ocr.ocr(img, cls=True)` returns an arbitrarily-shaped Python object; the
extraction loop in `run_ocr_sync` (lines 89-99) probes it with truthiness,
`len`, subscripting, `isinstance(_, tuple)` and tuple unpacking.  `Py` models
the Python values relevant to those probes; operations that raise in Python
return `Except.error`. -/

inductive Py where
  | pyNone : Py
  | pyStr (s : String) : Py
  | pyNum (q : ℚ) : Py
  | pyTuple (xs : List Py) : Py
  | pyList (xs : List Py) : Py

/-- Python truthiness (`if x:`) for the modelled values. -/
def truthy : Py → Bool
  | .pyNone => false
  | .pyStr s => !s.isEmpty
  | .pyNum q => q != 0
  | .pyTuple [] => false
  | .pyTuple (_ :: _) => true
  | .pyList [] => false
  | .pyList (_ :: _) => true

/-- Python `len(x)`; raises `TypeError` on unsized values. -/
def pyLen : Py → Except String Nat
  | .pyStr s => .ok s.length
  | .pyTuple xs => .ok xs.length
  | .pyList xs => .ok xs.length
  | _ => .error "TypeError: object has no len"

/-- Python subscription `x[i]` for a nonnegative index. -/
def pyGetItem : Py → Nat → Except String Py
  | .pyStr s, i =>
      match s.data.get? i with
      | some c => .ok (.pyStr (String.singleton c))
      | none => .error "IndexError: string index out of range"
  | .pyTuple xs, i =>
      match xs.get? i with
      | some v => .ok v
      | none => .error "IndexError: tuple index out of range"
  | .pyList xs, i =>
      match xs.get? i with
      | some v => .ok v
      | none => .error "IndexError: list index out of range"
  | _, _ => .error "TypeError: object is not subscriptable"

/-- Python iteration `for x in obj` as a list of elements. -/
def pyIterate : Py → Except String (List Py)
  | .pyList xs => .ok xs
  | .pyTuple xs => .ok xs
  | .pyStr s => .ok (s.data.map fun c => .pyStr (String.singleton c))
  | _ => .error "TypeError: object is not iterable"

/-! ## Extraction loop of `run_ocr_sync` (main.py lines 85-99) -/

/-- One iteration of the loop body (lines 90-96):

    if line and len(line) >= 2:
        text_info = line[1]
        if isinstance(text_info, tuple) and len(text_info) >= 2:
            text, conf = text_info
            ...append...

`ok none` means the entry was skipped by a guard; `ok (some (t, c))` means
`(text, conf)` was appended.  Note the unpacking `text, conf = text_info`
succeeds only when the tuple has exactly two elements, while the guard admits
any length `>= 2`: a longer tuple raises `ValueError`. -/
def processLine (line : Py) : Except String (Option (Py × Py)) :=
  if truthy line then
    match pyLen line with
    | .error e => .error e
    | .ok n =>
      if 2 ≤ n then
        match pyGetItem line 1 with
        | .error e => .error e
        | .ok textInfo =>
          match textInfo with
          | .pyTuple xs =>
            if 2 ≤ xs.length then
              match xs with
              | [t, c] => .ok (some (t, c))
              | _ => .error "ValueError: too many values to unpack"
            else .ok none
          | _ => .ok none
      else .ok none
  else .ok none

/-- The whole loop (lines 89-96): accumulate the `lines` and `confidences`
lists in input order, propagating the first raised exception. -/
def collectLines : List Py → Except String (List Py × List Py)
  | [] => .ok ([], [])
  | line :: rest =>
    match processLine line with
    | .error e => .error e
    | .ok none => collectLines rest
    | .ok (some (t, c)) =>
      match collectLines rest with
      | .error e => .error e
      | .ok (ts, cs) => .ok (t :: ts, c :: cs)

/-- Check that every accumulated `text` is a Python `str`, as
`"\n".join(lines)` (line 98) requires. -/
def allStrings : List Py → Option (List String)
  | [] => some []
  | .pyStr s :: rest => (allStrings rest).map (s :: ·)
  | _ => none

/-- Check that every accumulated `conf` is numeric, as
`sum(confidences)` (line 99) requires. -/
def allNums : List Py → Option (List ℚ)
  | [] => some []
  | .pyNum q :: rest => (allNums rest).map (q :: ·)
  | _ => none

/-- The guard `if result and result[0]:` (line 89) producing the list of raw
line entries to iterate over (empty when either guard is falsy). -/
def pageLines (result : Py) : Except String (List Py) :=
  if truthy result then
    match pyGetItem result 0 with
    | .error e => .error e
    | .ok page => if truthy page then pyIterate page else .ok []
  else .ok []

/-- The pure extraction/aggregation tail of `run_ocr_sync` (lines 85-99):
from the raw `ocr.ocr` result to `(full_text, avg_confidence)` where

    full_text = "\n".join(lines)
    avg_confidence = sum(confidences) / len(confidences) * 100
                     if confidences else 0

(the division is over ℚ and `len(confidences) > 0` in the branch taken). -/
def ocrExtract (result : Py) : Except String (String × ℚ) :=
  match pageLines result with
  | .error e => .error e
  | .ok rawLines =>
    match collectLines rawLines with
    | .error e => .error e
    | .ok (ts, cs) =>
      match allStrings ts with
      | none => .error "TypeError: sequence item expected str instance"
      | some texts =>
        match allNums cs with
        | none => .error "TypeError: unsupported operand type for sum"
        | some confs =>
          .ok (String.intercalate "\n" texts,
               if confs.isEmpty then 0
               else confs.sum / (confs.length : ℚ) * 100)

/-! ## Rounding and truncation helpers -/

/-- Floor of a rational, computed from its normalized fraction. -/
def ratFloor (q : ℚ) : ℤ := Int.fdiv q.num q.den

/-- Python `round` to the nearest integer (banker's rounding, as on CPython
numbers: ties go to the even neighbour). -/
def roundHalfEven (q : ℚ) : ℤ :=
  let f := ratFloor q
  let r := q - (f : ℚ)
  if r < 1 / 2 then f
  else if 1 / 2 < r then f + 1
  else if f % 2 = 0 then f else f + 1

/-- Python `round(x, 1)` (main.py line 149: `round(avg_confidence, 1)`). -/
def round1 (q : ℚ) : ℚ := (roundHalfEven (q * 10) : ℚ) / 10

/-- Python `int(x)`: truncation toward zero
(main.py lines 144, 161: `int((time.time() - start_time) * 1000)`). -/
def truncInt (q : ℚ) : ℤ :=
  if 0 ≤ q then ratFloor q else -(ratFloor (-q))

/-! ## Canonical well-formed and classified raw entries -/

/-- A well-formed raw PaddleOCR line entry: `[box, (text, confidence)]`. -/
def mkLine (t : String) (c : ℚ) : Py :=
  .pyList [.pyList [.pyNum 0], .pyTuple [.pyStr t, .pyNum c]]

/-- A well-formed raw PaddleOCR result: one page holding the given lines. -/
def mkResult (ls : List (String × ℚ)) : Py :=
  .pyList [.pyList (ls.map fun p => mkLine p.1 p.2)]

/-- The `(text, conf)` pair the loop appends for this entry, when the entry
passes all guards with a `str` text and numeric confidence. -/
def goodPair (p : Py) : Option (String × ℚ) :=
  match processLine p with
  | .ok (some (.pyStr t, .pyNum c)) => some (t, c)
  | _ => none

/-- An entry the loop either skips by a guard or appends as a well-typed
`(str, number)` pair — i.e. one that that cannot raise, now or downstream. -/
def lineShapeOk (p : Py) : Bool :=
  match processLine p with
  | .ok none => true
  | .ok (some (.pyStr _, .pyNum _)) => true
  | _ => false

/-- Mean confidence scaled to percent, `0` for the empty list — the
`sum(confidences) / len(confidences) * 100 if confidences else 0` formula. -/
def meanConf (cs : List ℚ) : ℚ :=
  if cs.isEmpty then 0 else cs.sum / (cs.length : ℚ) * 100

/-! ## The `recognize` endpoint (main.py lines 119-162) as a traced pipeline

Each external capability the handler calls is a parameter of `Env`:
`decode` models `cv2.imdecode(np.frombuffer(contents, np.uint8), IMREAD_COLOR)`
(`none` = the `None` return that triggers `HTTPException`), `engineCtor`
models the `PaddleOCR(...)` constructor (which may raise), `ocrRun` models
`ocr.ocr(img, cls=True)` (which may raise or return an arbitrary object), and
`t0`, `t1` are the two `time.time()` readings (line 125, and line 144/161).
The handler returns the response together with the ordered event trace of its
resource actions. -/

/-- Resource events of one request, in program order. -/
inductive Ev where
  | timerStart (t : ℚ) : Ev
  | acquirePermit : Ev
  | readImage : Ev
  | invokeDecode : Ev
  | invokeEngineCtor : Ev
  | invokeOcr : Ev
  | releaseEngineGc : Ev
  | gcOnError : Ev
  | respond (t : ℚ) : Ev
  | releasePermit : Ev
deriving DecidableEq, BEq, Repr

/-- External capabilities and clock readings for one request. -/
structure Env where
  decode : List Nat → Option Unit
  engineCtor : String → Except String Unit
  ocrRun : String → Except String Py
  t0 : ℚ
  t1 : ℚ

/-- One inbound request: raw image bytes and the `language` form field
(FastAPI supplies `"en"` when the field is absent). -/
structure Request where
  imageBytes : List Nat
  language : String

/-- The `OCRResponse` pydantic model (main.py lines 56-62), with its field
defaults. -/
structure OCRResponse where
  success : Bool
  text : String := ""
  confidence : ℚ := 0
  processingTime : ℤ := 0
  detectedLanguage : String := ""
  error : String := ""
deriving DecidableEq, Repr

/-- The message of the `HTTPException(status_code=400, detail="Invalid image
file")` raised on decode failure (line 136), as seen by `str(e)` in the
handler's `except` block. -/
def decodeErrMsg : String := "400: Invalid image file"

/-- `run_ocr_sync` (main.py lines 65-105) with the engine construction and
recognition delegated to `env`, returning the outcome together with the events
it performs.  On success the instance is explicitly deleted and
`gc.collect()` runs (`releaseEngineGc`, lines 102-103); when construction,
recognition or extraction raises, the exception propagates to the caller
without running those two lines. -/
def run_ocr_syncEv (env : Env) (lang : String) :
    Except String (String × ℚ) × List Ev :=
  let paddle_lang := resolveLang lang
  match env.engineCtor paddle_lang with
  | .error e => (.error e, [.invokeEngineCtor])
  | .ok _ =>
    match env.ocrRun paddle_lang with
    | .error e => (.error e, [.invokeEngineCtor, .invokeOcr])
    | .ok rawResult =>
      match ocrExtract rawResult with
      | .error e => (.error e, [.invokeEngineCtor, .invokeOcr])
      | .ok out =>
        (.ok out, [.invokeEngineCtor, .invokeOcr, .releaseEngineGc])

/-- The `recognize` endpoint (main.py lines 119-162).  Program order:
`start_time = time.time()`; `async with ocr_semaphore:`; inside the `try`,
read and decode the upload, run `run_ocr_sync` in the executor, and build the
success response; any exception is caught by the `except` block, which runs
`gc.collect()` and builds the failure response; leaving the `async with`
releases the semaphore permit on both paths. -/
def recognize (env : Env) (req : Request) : OCRResponse × List Ev :=
  let pre : List Ev :=
    [.timerStart env.t0, .acquirePermit, .readImage, .invokeDecode]
  match env.decode req.imageBytes with
  | none =>
      ({ success := false
         error := decodeErrMsg
         processingTime := truncInt ((env.t1 - env.t0) * 1000) },
       pre ++ [.gcOnError, .respond env.t1, .releasePermit])
  | some _ =>
      match run_ocr_syncEv env req.language with
      | (.ok (full_text, avg_confidence), evs) =>
          ({ success := true
             text := full_text
             confidence := round1 avg_confidence
             processingTime := truncInt ((env.t1 - env.t0) * 1000)
             detectedLanguage := req.language },
           pre ++ evs ++ [.respond env.t1, .releasePermit])
      | (.error e, evs) =>
          ({ success := false
             error := e
             processingTime := truncInt ((env.t1 - env.t0) * 1000) },
           pre ++ evs ++ [.gcOnError, .respond env.t1, .releasePermit])

/-- Whether an event disposes the engine instance with a deallocation hint:
either the success path's `del ocr; gc.collect()` or the `except` block's
`gc.collect()` (run after the executor frame holding the instance has
unwound). -/
def isEngineRelease : Ev → Bool
  | .releaseEngineGc => true
  | .gcOnError => true
  | _ => false

/-- Checks that the trace contains an engine-release event followed (strictly
later) by a gate-permit release. -/
def releasesInOrder (tr : List Ev) : Bool :=
  match tr.dropWhile (fun e => !isEngineRelease e) with
  | [] => false
  | _ :: rest => rest.contains .releasePermit

/-- Whether an event is a gate-permit acquisition. -/
def isAcquireEv : Ev → Bool
  | .acquirePermit => true
  | _ => false

/-- Whether an event is a gate-permit release. -/
def isReleasePermitEv : Ev → Bool
  | .releasePermit => true
  | _ => false

/-- Number of gate-permit acquisitions in a trace. -/
def permitAcquisitions (tr : List Ev) : Nat := tr.countP isAcquireEv

/-- Number of gate-permit releases in a trace. -/
def permitReleases (tr : List Ev) : Nat := tr.countP isReleasePermitEv

/-! ## The concurrency gate (`ocr_semaphore = asyncio.Semaphore(1)`, line 30)

`asyncio.Semaphore(C)` is modelled as a labelled transition system: each task
moves `idle → waiting` (the request arrives), `waiting → holding` (acquire
succeeds; enabled only when the permit count is positive, which it decrements)
and `holding → done` (release; increments the count).  An interleaving is any
label list accepted by `runTrace` from the initial state. -/

/-- Lifecycle phase of one request task with respect to the gate. -/
inductive Phase where
  | idle : Phase
  | waiting : Phase
  | holding : Phase
  | done : Phase
deriving DecidableEq, BEq, Repr

/-- Transition labels: task `i` arrives, acquires, or releases. -/
inductive GLabel where
  | request (i : Nat) : GLabel
  | acquire (i : Nat) : GLabel
  | release (i : Nat) : GLabel
deriving DecidableEq, BEq, Repr

/-- Gate state: free permit count plus the phase of every task. -/
structure GateState where
  count : Nat
  tasks : List Phase
deriving DecidableEq, Repr

/-- One gate transition; `none` when the label is not enabled. -/
def gstep (s : GateState) : GLabel → Option GateState
  | .request i =>
      match s.tasks.get? i with
      | some .idle => some { s with tasks := s.tasks.set i .waiting }
      | _ => none
  | .acquire i =>
      match s.tasks.get? i with
      | some .waiting =>
          if 0 < s.count then
            some { count := s.count - 1, tasks := s.tasks.set i .holding }
          else none
      | _ => none
  | .release i =>
      match s.tasks.get? i with
      | some .holding =>
          some { count := s.count + 1, tasks := s.tasks.set i .done }
      | _ => none

/-- Run a whole interleaving; `none` when some label was not enabled. -/
def runTrace (s : GateState) : List GLabel → Option GateState
  | [] => some s
  | l :: ls =>
    match gstep s l with
    | some s2 => runTrace s2 ls
    | none => none

/-- Initial state: `C` free permits, `n` idle tasks. -/
def gateInit (C n : Nat) : GateState := ⟨C, List.replicate n .idle⟩

/-- Contribution of one task phase to the number of concurrent holders. -/
def phaseHolds : Phase → Nat
  | .holding => 1
  | _ => 0

/-- Number of tasks currently holding a permit. -/
def holders (l : List Phase) : Nat := (l.map phaseHolds).sum

/-- Whether a label is a permit release. -/
def isReleaseLbl : GLabel → Bool
  | .release _ => true
  | _ => false

/-! ## Concrete sample inputs used by witnesses and counterexamples -/

/-- A sample request (three arbitrary bytes, language `en`). -/
def reqSample : Request := ⟨[1, 2, 3], "en"⟩

/-- Environment whose decode capability fails (`cv2.imdecode` returns
`None`); clock readings 0 and 2 seconds. -/
def envDecodeFail : Env :=
  ⟨fun _ => none, fun _ => .ok (), fun _ => .ok (.pyList []), 0, 2⟩

/-- Environment whose engine constructor raises (missing model assets). -/
def envCtorFail : Env :=
  ⟨fun _ => some (), fun _ => .error "model missing", fun _ => .ok (.pyList []),
   0, 2⟩

/-- Environment whose recognition call raises with a message. -/
def envOcrFault : Env :=
  ⟨fun _ => some (), fun _ => .ok (), fun _ => .error "engine blew up", 0, 2⟩

/-- Environment whose recognition call raises an exception whose string
representation is empty (as `str(Exception())` is in Python). -/
def envEmptyMsg : Env :=
  ⟨fun _ => some (), fun _ => .ok (), fun _ => .error "", 0, 2⟩

/-- Environment whose recognition succeeds with one well-formed line. -/
def envOk : Env :=
  ⟨fun _ => some (), fun _ => .ok (), fun _ => .ok (mkResult [("hi", 1)]),
   0, 2⟩

/-- Three well-formed lines with confidences 1, 1, 0 (all within [0,1]). -/
def sampleLines : List (String × ℚ) :=
  [("a", 1), ("b", 1), ("c", 0)]

/-- A raw page mixing two well-formed lines with three malformed entries that
the loop's guards skip: a falsy entry, an entry of length 1, and an entry
whose second element is not a tuple. -/
def sampleMixed : List Py :=
  [mkLine "a" 1, .pyNone, .pyList [.pyNum 0],
   .pyList [.pyList [.pyNum 0], .pyStr "x"], mkLine "b" 1]

/-- A raw result whose single line passes the `len(text_info) >= 2` guard with
a three-element tuple, so `text, conf = text_info` raises `ValueError`. -/
def tripleTupleResult : Py :=
  .pyList [.pyList [.pyList [.pyList [.pyNum 0],
    .pyTuple [.pyStr "a", .pyNum 1, .pyNum 2]]]]

/-! ## Theorems -/

/-- Association-list lookup with default stays inside any set containing every
mapped value and the default. -/
theorem lookup_getD_mem {S : List String} {l : List (String × String)}
    {d : String} (hl : ∀ p ∈ l, p.2 ∈ S) (hd : d ∈ S) (s : String) :
    ((List.lookup s l).getD d) ∈ S := by
  induction l with
  | nil => simpa [List.lookup] using hd
  | cons p t ih =>
    obtain ⟨k, v⟩ := p
    by_cases hk : s == k
    · simpa [List.lookup, hk] using hl (k, v) (by simp)
    · simpa [List.lookup, hk] using
        ih (fun q hq => hl q (List.mem_cons_of_mem _ hq))

/-- Association-list lookup misses when no key equals the probe. -/
theorem lookup_eq_none_of_forall_ne {l : List (String × String)} {s : String}
    (h : ∀ p ∈ l, p.1 ≠ s) : List.lookup s l = none := by
  induction l with
  | nil => rfl
  | cons p t ih =>
    obtain ⟨k, v⟩ := p
    have hne := h (k, v) (by simp)
    have hk : (s == k) = false :=
      beq_eq_false_iff_ne.mpr fun he => hne he.symm
    simp only [List.lookup, hk]
    exact ih fun q hq => h q (List.mem_cons_of_mem _ hq)

/-- C1 (counterexample): the claim says the canonical code `japan` resolves to
itself via an identity mapping, but `japan` is not a key of `LANG_MAP`, so the
resolver sends it to the default `en`. -/
theorem c1_resolver_counterexample :
    resolveLang "japan" = "en" ∧ resolveLang "japan" ≠ "japan" := by decide

/-- C1 (amended): every alias in an alias group maps to the same canonical
identifier as the other members of its group, every canonical code that is
itself a key of the table (`en`, `vi`, `ch`, `es`, `ru`) resolves to itself,
and every code outside the table — including the canonical identifiers
`japan`, `korean`, `french`, `german`, `chinese_cht`, which are not keys —
resolves to the default `en`. -/
theorem c1_resolver_amended :
    (resolveLang "en" = "en" ∧ resolveLang "eng" = "en" ∧
     resolveLang "vi" = "vi" ∧ resolveLang "vie" = "vi" ∧
     resolveLang "ch" = "ch" ∧ resolveLang "chi_sim" = "ch" ∧
     resolveLang "chi_tra" = "chinese_cht" ∧
     resolveLang "ja" = "japan" ∧ resolveLang "jpn" = "japan" ∧
     resolveLang "ko" = "korean" ∧ resolveLang "kor" = "korean" ∧
     resolveLang "fr" = "french" ∧ resolveLang "fra" = "french" ∧
     resolveLang "de" = "german" ∧ resolveLang "deu" = "german" ∧
     resolveLang "es" = "es" ∧ resolveLang "spa" = "es" ∧
     resolveLang "ru" = "ru" ∧ resolveLang "rus" = "ru") ∧
    (∀ s : String, s ∉ LANG_MAP.map Prod.fst → resolveLang s = "en") := by
  refine ⟨by decide, fun s hs => ?_⟩
  have hne : ∀ p ∈ LANG_MAP, p.1 ≠ s := by
    intro p hp he
    exact hs (he ▸ List.mem_map_of_mem Prod.fst hp)
  simp [resolveLang, lookup_eq_none_of_forall_ne hne]

/-- C1 (witness): `japan` is outside the key set and resolves to `en`. -/
theorem c1_resolver_witness :
    ("japan" ∉ LANG_MAP.map Prod.fst) ∧ resolveLang "japan" = "en" :=
  ⟨by decide, c1_resolver_amended.2 "japan" (by decide)⟩

/-- C9: for every input string, the resolver's output is a member of the fixed
enumerated canonical set; in particular unknown codes resolve to the default
`en`, which is in the set. -/
theorem c9_resolver_range (s : String) :
    resolveLang s ∈ canonicalLanguages :=
  lookup_getD_mem (by decide) (by decide) s

/-- String literals pass the `"\n".join` type check unchanged. -/
theorem allStrings_map_pyStr (l : List String) :
    allStrings (l.map Py.pyStr) = some l := by
  induction l with
  | nil => rfl
  | cons s t ih => simp [allStrings, ih]

/-- Numeric literals pass the `sum` type check unchanged. -/
theorem allNums_map_pyNum (l : List ℚ) :
    allNums (l.map Py.pyNum) = some l := by
  induction l with
  | nil => rfl
  | cons q t ih => simp [allNums, ih]

/-- Characterization of the shape condition: the entry is either skipped by a
guard or contributes a well-typed `(str, number)` pair. -/
theorem lineShapeOk_iff (p : Py) : lineShapeOk p = true ↔
    processLine p = .ok none ∨
      ∃ t c, processLine p = .ok (some (.pyStr t, .pyNum c)) := by
  unfold lineShapeOk
  rcases hp : processLine p with e | o
  · simp
  · rcases o with _ | ⟨a, b⟩
    · simp
    · cases a <;> cases b <;> simp

/-- Under the per-entry shape condition, the loop succeeds and collects
exactly the well-formed `(text, conf)` pairs, in input order. -/
theorem collectLines_shape (ls : List Py)
    (h : ∀ p ∈ ls, lineShapeOk p = true) :
    collectLines ls =
      .ok ((ls.filterMap goodPair).map (fun p => Py.pyStr p.1),
           (ls.filterMap goodPair).map (fun p => Py.pyNum p.2)) := by
  induction ls with
  | nil => rfl
  | cons p t ih =>
    have hp := (lineShapeOk_iff p).mp (h p (List.mem_cons_self p t))
    have ht := ih fun q hq => h q (List.mem_cons_of_mem _ hq)
    rcases hp with hp | ⟨s, q, hp⟩
    · have hg : goodPair p = none := by unfold goodPair; rw [hp]
      simp [collectLines, hp, ht, List.filterMap_cons, hg]
    · have hg : goodPair p = some (s, q) := by unfold goodPair; rw [hp]
      simp [collectLines, hp, ht, List.filterMap_cons, hg]

/-- Core tolerance property of the extraction (main.py lines 89-99): a page
each of whose entries is either guard-skipped or a well-typed pair aggregates
without failure, over the well-typed pairs only. -/
theorem ocrExtract_shape (ls : List Py)
    (h : ∀ p ∈ ls, lineShapeOk p = true) :
    ocrExtract (.pyList [.pyList ls]) =
      .ok (String.intercalate "\n" ((ls.filterMap goodPair).map Prod.fst),
           meanConf ((ls.filterMap goodPair).map Prod.snd)) := by
  have hpage : pageLines (.pyList [.pyList ls]) = .ok ls := by
    cases ls with
    | nil => rfl
    | cons p t => rfl
  have h1 : (ls.filterMap goodPair).map (fun p => Py.pyStr p.1)
      = ((ls.filterMap goodPair).map Prod.fst).map Py.pyStr := by
    simp [List.map_map]
  have h2 : (ls.filterMap goodPair).map (fun p => Py.pyNum p.2)
      = ((ls.filterMap goodPair).map Prod.snd).map Py.pyNum := by
    simp [List.map_map]
  simp only [ocrExtract, hpage, collectLines_shape ls h, h1, h2,
    allStrings_map_pyStr, allNums_map_pyNum, meanConf]

/-- C6 (amended): entries rejected by the loop's guards — falsy entries,
entries shorter than two elements, or whose second element is not a tuple of
length at least two — are excluded from the confidence mean entirely rather
than counted as zero, and aggregation never fails on such input; however an
entry whose text/confidence tuple has MORE than two elements passes the
`len(text_info) >= 2` guard and then faults the unpacking `text, conf =
text_info`, so aggregation is not failure-free on every malformed shape. -/
theorem c6_malformed_amended (ls : List Py)
    (h : ∀ p ∈ ls, lineShapeOk p = true) :
    ocrExtract (.pyList [.pyList ls]) =
      .ok (String.intercalate "\n" ((ls.filterMap goodPair).map Prod.fst),
           meanConf ((ls.filterMap goodPair).map Prod.snd)) :=
  ocrExtract_shape ls h

/-- C6 (counterexample): a malformed entry whose text/confidence tuple has
three elements makes the aggregation raise `ValueError` instead of being
excluded, refuting the claim that aggregation never fails on malformed
entries. -/
theorem c6_malformed_counterexample :
    ocrExtract tripleTupleResult =
      .error "ValueError: too many values to unpack" := rfl

/-- C6 (witness): a page mixing two well-formed lines with three guard-skipped
malformed entries aggregates to the two good lines only. -/
theorem c6_malformed_witness :
    ocrExtract (.pyList [.pyList sampleMixed]) =
      .ok (String.intercalate "\n"
             ((sampleMixed.filterMap goodPair).map Prod.fst),
           meanConf ((sampleMixed.filterMap goodPair).map Prod.snd)) :=
  c6_malformed_amended sampleMixed (by decide)

/-- A well-formed raw line passes every guard. -/
theorem lineShapeOk_mkLine (t : String) (c : ℚ) :
    lineShapeOk (mkLine t c) = true := rfl

/-- A well-formed raw line contributes exactly its `(text, conf)` pair. -/
theorem goodPair_mkLine (t : String) (c : ℚ) :
    goodPair (mkLine t c) = some (t, c) := rfl

/-- Well-formed pages lose nothing in extraction. -/
theorem filterMap_goodPair_mkLine (ls : List (String × ℚ)) :
    (ls.map fun p => mkLine p.1 p.2).filterMap goodPair = ls := by
  induction ls with
  | nil => rfl
  | cons p t ih => simp [List.filterMap_cons, goodPair_mkLine, ih]

/-- Rounding a zero confidence is zero. -/
theorem round1_zero : round1 0 = 0 := by
  have hfl : ratFloor 0 = 0 := rfl
  norm_num [round1, roundHalfEven, hfl]

/-- C5: for every sequence of N well-formed lines with confidences in [0,1],
the aggregation (extraction plus the `round(avg_confidence, 1)` applied when
the response is built, main.py line 149) yields the texts joined in input
order by newlines, and confidence `round(mean * 100, 1)`; the empty sequence
yields the empty string and 0. -/
theorem c5_aggregate (ls : List (String × ℚ))
    (h : ∀ p ∈ ls, 0 ≤ p.2 ∧ p.2 ≤ 1) :
    (ocrExtract (mkResult ls)).map (fun r => (r.1, round1 r.2)) =
      .ok (String.intercalate "\n" (ls.map Prod.fst),
           if ls.isEmpty then 0
           else round1 ((ls.map Prod.snd).sum / (ls.length : ℚ) * 100)) := by
  have hshape : ∀ p ∈ (ls.map fun p => mkLine p.1 p.2), lineShapeOk p = true := by
    intro p hp
    obtain ⟨q, hq, rfl⟩ := List.mem_map.mp hp
    exact lineShapeOk_mkLine q.1 q.2
  have hx := ocrExtract_shape (ls.map fun p => mkLine p.1 p.2) hshape
  rw [filterMap_goodPair_mkLine] at hx
  have hmk : mkResult ls = .pyList [.pyList (ls.map fun p => mkLine p.1 p.2)] := rfl
  rw [hmk, hx]
  cases ls with
  | nil => simp [meanConf, Except.map, round1_zero]
  | cons p t =>
    simp [meanConf, Except.map, List.isEmpty_cons, List.length_map]

/-- C5 (witness): three lines with confidences 0.9, 0.8, 0.7 aggregate to the
newline-joined texts with confidence 80.0. -/
theorem c5_aggregate_witness :
    (ocrExtract (mkResult sampleLines)).map (fun r => (r.1, round1 r.2)) =
      .ok (String.intercalate "\n" (sampleLines.map Prod.fst),
           if sampleLines.isEmpty then 0
           else round1 ((sampleLines.map Prod.snd).sum /
                        (sampleLines.length : ℚ) * 100)) :=
  c5_aggregate sampleLines (by simp [sampleLines])

/-- Branch equation: decode failure (`cv2.imdecode` returns `None`). -/
theorem recognize_decode_fail {env : Env} {req : Request}
    (h : env.decode req.imageBytes = none) :
    recognize env req =
      ({ success := false
         error := decodeErrMsg
         processingTime := truncInt ((env.t1 - env.t0) * 1000) },
       [.timerStart env.t0, .acquirePermit, .readImage, .invokeDecode,
        .gcOnError, .respond env.t1, .releasePermit]) := by
  simp [recognize, h]

/-- Branch equation: the `PaddleOCR(...)` constructor raises. -/
theorem recognize_ctor_fail {env : Env} {req : Request} {u : Unit} {e : String}
    (h1 : env.decode req.imageBytes = some u)
    (h2 : env.engineCtor (resolveLang req.language) = .error e) :
    recognize env req =
      ({ success := false
         error := e
         processingTime := truncInt ((env.t1 - env.t0) * 1000) },
       [.timerStart env.t0, .acquirePermit, .readImage, .invokeDecode,
        .invokeEngineCtor, .gcOnError, .respond env.t1, .releasePermit]) := by
  simp [recognize, run_ocr_syncEv, h1, h2]

/-- Branch equation: `ocr.ocr(img, cls=True)` raises. -/
theorem recognize_ocr_fail {env : Env} {req : Request} {u v : Unit}
    {e : String}
    (h1 : env.decode req.imageBytes = some u)
    (h2 : env.engineCtor (resolveLang req.language) = .ok v)
    (h3 : env.ocrRun (resolveLang req.language) = .error e) :
    recognize env req =
      ({ success := false
         error := e
         processingTime := truncInt ((env.t1 - env.t0) * 1000) },
       [.timerStart env.t0, .acquirePermit, .readImage, .invokeDecode,
        .invokeEngineCtor, .invokeOcr, .gcOnError, .respond env.t1,
        .releasePermit]) := by
  simp [recognize, run_ocr_syncEv, h1, h2, h3]

/-- Branch equation: recognition returned, but the extraction loop raises
(for example the `ValueError` of a three-element text/confidence tuple). -/
theorem recognize_extract_fail {env : Env} {req : Request} {u v : Unit}
    {raw : Py} {e : String}
    (h1 : env.decode req.imageBytes = some u)
    (h2 : env.engineCtor (resolveLang req.language) = .ok v)
    (h3 : env.ocrRun (resolveLang req.language) = .ok raw)
    (h4 : ocrExtract raw = .error e) :
    recognize env req =
      ({ success := false
         error := e
         processingTime := truncInt ((env.t1 - env.t0) * 1000) },
       [.timerStart env.t0, .acquirePermit, .readImage, .invokeDecode,
        .invokeEngineCtor, .invokeOcr, .gcOnError, .respond env.t1,
        .releasePermit]) := by
  simp [recognize, run_ocr_syncEv, h1, h2, h3, h4]

/-- Branch equation: the whole pipeline succeeds. -/
theorem recognize_success {env : Env} {req : Request} {u v : Unit} {raw : Py}
    {ft : String} {av : ℚ}
    (h1 : env.decode req.imageBytes = some u)
    (h2 : env.engineCtor (resolveLang req.language) = .ok v)
    (h3 : env.ocrRun (resolveLang req.language) = .ok raw)
    (h4 : ocrExtract raw = .ok (ft, av)) :
    recognize env req =
      ({ success := true
         text := ft
         confidence := round1 av
         processingTime := truncInt ((env.t1 - env.t0) * 1000)
         detectedLanguage := req.language },
       [.timerStart env.t0, .acquirePermit, .readImage, .invokeDecode,
        .invokeEngineCtor, .invokeOcr, .releaseEngineGc, .respond env.t1,
        .releasePermit]) := by
  simp [recognize, run_ocr_syncEv, h1, h2, h3, h4]

/-- C2 (amended): on decode failure the pipeline returns `success=false` with
the decode fault's error, but the gate permit IS acquired before the decode
attempt — the permit-acquisition count of the request is exactly one (matched
by exactly one release), not zero, and recognition is never invoked. -/
theorem c2_decode_permit_amended (env : Env) (req : Request)
    (h : env.decode req.imageBytes = none) :
    (recognize env req).1.success = false ∧
    (recognize env req).1.error = decodeErrMsg ∧
    permitAcquisitions (recognize env req).2 = 1 ∧
    permitReleases (recognize env req).2 = 1 ∧
    Ev.invokeOcr ∉ (recognize env req).2 := by
  rw [recognize_decode_fail h]
  refine ⟨rfl, rfl, rfl, rfl, ?_⟩
  simp

/-- C2 (counterexample): for a request whose payload fails to decode, the
permit-acquisition count is not zero (the semaphore is entered on line 128,
before the decode on lines 131-133), refuting the claim that no permit is
ever acquired for such a request. -/
theorem c2_decode_permit_counterexample :
    envDecodeFail.decode reqSample.imageBytes = none ∧
    (recognize envDecodeFail reqSample).1.success = false ∧
    (recognize envDecodeFail reqSample).1.error ≠ "" ∧
    permitAcquisitions (recognize envDecodeFail reqSample).2 ≠ 0 := by
  refine ⟨rfl, rfl, ?_, ?_⟩ <;> decide

/-- C2 (witness): the amended statement at the concrete decode-failing
environment. -/
theorem c2_decode_permit_witness :
    (recognize envDecodeFail reqSample).1.success = false ∧
    (recognize envDecodeFail reqSample).1.error = decodeErrMsg ∧
    permitAcquisitions (recognize envDecodeFail reqSample).2 = 1 ∧
    permitReleases (recognize envDecodeFail reqSample).2 = 1 ∧
    Ev.invokeOcr ∉ (recognize envDecodeFail reqSample).2 :=
  c2_decode_permit_amended envDecodeFail reqSample rfl

/-- C3: every request that reaches the recognition step releases the engine
instance with a deallocation hint (the success path's `del ocr; gc.collect()`
or the except block's `gc.collect()`) and releases the gate permit strictly
afterwards, on every completion path, including when recognition itself
faults. -/
theorem c3_release_order (env : Env) (req : Request)
    (h : Ev.invokeOcr ∈ (recognize env req).2) :
    releasesInOrder (recognize env req).2 = true := by
  rcases hdec : env.decode req.imageBytes with _ | u
  · rw [recognize_decode_fail hdec] at h
    exact absurd h (by simp)
  · rcases hctor : env.engineCtor (resolveLang req.language) with e | v
    · rw [recognize_ctor_fail hdec hctor] at h
      exact absurd h (by simp)
    · rcases hocr : env.ocrRun (resolveLang req.language) with e | raw
      · rw [recognize_ocr_fail hdec hctor hocr]; rfl
      · rcases hex : ocrExtract raw with e | out
        · rw [recognize_extract_fail hdec hctor hocr hex]; rfl
        · obtain ⟨ft, av⟩ := out
          rw [recognize_success hdec hctor hocr hex]; rfl

/-- C3 (witness): the release ordering at a concrete environment whose
recognition call faults. -/
theorem c3_release_order_witness :
    releasesInOrder (recognize envOcrFault reqSample).2 = true :=
  c3_release_order envOcrFault reqSample
    (by simp [recognize, run_ocr_syncEv, envOcrFault, reqSample])

/-- C4 (amended): every fault arising during processing (decode fault, engine
construction failure, recognition fault, extraction fault) is caught and
converted into a well-formed response with `success=false`, `text` and
`confidence` at their defaults, and `error` equal to the fault's description
— which is non-empty for the decode fault's fixed message but empty when the
caught exception's string representation is empty. -/
theorem c4_fault_handling_amended (env : Env) (req : Request) :
    ((recognize env req).1.success = false →
       (recognize env req).1.text = "" ∧ (recognize env req).1.confidence = 0) ∧
    (env.decode req.imageBytes = none →
       (recognize env req).1.success = false ∧
       (recognize env req).1.error = decodeErrMsg) ∧
    (∀ (u : Unit) (e : String), env.decode req.imageBytes = some u →
       env.engineCtor (resolveLang req.language) = .error e →
       (recognize env req).1.success = false ∧
       (recognize env req).1.error = e) ∧
    (∀ (u v : Unit) (e : String), env.decode req.imageBytes = some u →
       env.engineCtor (resolveLang req.language) = .ok v →
       env.ocrRun (resolveLang req.language) = .error e →
       (recognize env req).1.success = false ∧
       (recognize env req).1.error = e) ∧
    (∀ (u v : Unit) (raw : Py) (e : String),
       env.decode req.imageBytes = some u →
       env.engineCtor (resolveLang req.language) = .ok v →
       env.ocrRun (resolveLang req.language) = .ok raw →
       ocrExtract raw = .error e →
       (recognize env req).1.success = false ∧
       (recognize env req).1.error = e) := by
  rcases hdec : env.decode req.imageBytes with _ | u
  · rw [recognize_decode_fail hdec]
    exact ⟨fun _ => ⟨rfl, rfl⟩, fun _ => ⟨rfl, rfl⟩,
      fun u e hu _ => Option.noConfusion hu,
      fun u v e hu _ _ => Option.noConfusion hu,
      fun u v raw e hu _ _ _ => Option.noConfusion hu⟩
  · rcases hctor : env.engineCtor (resolveLang req.language) with e0 | v0
    · rw [recognize_ctor_fail hdec hctor]
      refine ⟨fun _ => ⟨rfl, rfl⟩, fun hd => Option.noConfusion hd,
        ?_, ?_, ?_⟩
      · intro u' e' _ hc
        injection hc with he
        exact ⟨rfl, he ▸ rfl⟩
      · intro u' v' e' _ hc _
        exact Except.noConfusion hc
      · intro u' v' raw e' _ hc _ _
        exact Except.noConfusion hc
    · rcases hocr : env.ocrRun (resolveLang req.language) with e0 | raw0
      · rw [recognize_ocr_fail hdec hctor hocr]
        refine ⟨fun _ => ⟨rfl, rfl⟩, fun hd => Option.noConfusion hd,
          ?_, ?_, ?_⟩
        · intro u' e' _ hc
          exact Except.noConfusion hc
        · intro u' v' e' _ _ ho
          injection ho with he
          exact ⟨rfl, he ▸ rfl⟩
        · intro u' v' raw e' _ _ ho _
          exact Except.noConfusion ho
      · rcases hex : ocrExtract raw0 with e0 | out0
        · rw [recognize_extract_fail hdec hctor hocr hex]
          refine ⟨fun _ => ⟨rfl, rfl⟩, fun hd => Option.noConfusion hd,
            ?_, ?_, ?_⟩
          · intro u' e' _ hc
            exact Except.noConfusion hc
          · intro u' v' e' _ _ ho
            exact Except.noConfusion ho
          · intro u' v' raw' e' _ _ ho hx
            injection ho with hraw
            rw [← hraw] at hx
            injection hex.symm.trans hx with he
            exact ⟨rfl, he ▸ rfl⟩
        · obtain ⟨ft, av⟩ := out0
          rw [recognize_success hdec hctor hocr hex]
          refine ⟨fun hs => Bool.noConfusion hs, fun hd => Option.noConfusion hd,
            ?_, ?_, ?_⟩
          · intro u' e' _ hc
            exact Except.noConfusion hc
          · intro u' v' e' _ _ ho
            exact Except.noConfusion ho
          · intro u' v' raw' e' _ _ ho hx
            injection ho with hraw
            rw [← hraw] at hx
            exact Except.noConfusion (hex.symm.trans hx)

/-- C4 (counterexample): a recognition fault whose exception has an empty
string representation yields `success=false` with an EMPTY `error` field
(the handler copies `str(e)` verbatim, line 160), refuting the claim that
`success=false` always comes with a non-empty error. -/
theorem c4_fault_handling_counterexample :
    (recognize envEmptyMsg reqSample).1.success = false ∧
    (recognize envEmptyMsg reqSample).1.error = "" :=
  ⟨rfl, rfl⟩

/-- C4 (witness): the amended statement applied at a concrete environment
whose engine constructor fails. -/
theorem c4_fault_handling_witness :
    (recognize envCtorFail reqSample).1.success = false ∧
    (recognize envCtorFail reqSample).1.error = "model missing" :=
  (c4_fault_handling_amended envCtorFail reqSample).2.2.1 () "model missing"
    rfl rfl

/-- C8: on both the success and the failure path, `processingTime` is the
truncation of `(t1 - t0) * 1000` where `t0` is read before the semaphore is
entered (the timer-start event precedes the permit acquisition in every
trace) and `t1` when the response is built. -/
theorem c8_processing_time (env : Env) (req : Request) :
    (recognize env req).1.processingTime =
      truncInt ((env.t1 - env.t0) * 1000) ∧
    (recognize env req).2.take 2 = [Ev.timerStart env.t0, Ev.acquirePermit] := by
  rcases hdec : env.decode req.imageBytes with _ | u
  · rw [recognize_decode_fail hdec]; exact ⟨rfl, rfl⟩
  · rcases hctor : env.engineCtor (resolveLang req.language) with e | v
    · rw [recognize_ctor_fail hdec hctor]; exact ⟨rfl, rfl⟩
    · rcases hocr : env.ocrRun (resolveLang req.language) with e | raw
      · rw [recognize_ocr_fail hdec hctor hocr]; exact ⟨rfl, rfl⟩
      · rcases hex : ocrExtract raw with e | out
        · rw [recognize_extract_fail hdec hctor hocr hex]; exact ⟨rfl, rfl⟩
        · obtain ⟨ft, av⟩ := out
          rw [recognize_success hdec hctor hocr hex]; exact ⟨rfl, rfl⟩

/-- C10: on every failure the `detectedLanguage` field keeps its default
empty string (the failure response on lines 158-162 never sets it); the
caller-supplied language code is echoed back only on the success path. -/
theorem c10_detected_language (env : Env) (req : Request) :
    ((recognize env req).1.success = false →
       (recognize env req).1.detectedLanguage = "") ∧
    ((recognize env req).1.success = true →
       (recognize env req).1.detectedLanguage = req.language) := by
  rcases hdec : env.decode req.imageBytes with _ | u
  · rw [recognize_decode_fail hdec]
    exact ⟨fun _ => rfl, fun hs => Bool.noConfusion hs⟩
  · rcases hctor : env.engineCtor (resolveLang req.language) with e | v
    · rw [recognize_ctor_fail hdec hctor]
      exact ⟨fun _ => rfl, fun hs => Bool.noConfusion hs⟩
    · rcases hocr : env.ocrRun (resolveLang req.language) with e | raw
      · rw [recognize_ocr_fail hdec hctor hocr]
        exact ⟨fun _ => rfl, fun hs => Bool.noConfusion hs⟩
      · rcases hex : ocrExtract raw with e | out
        · rw [recognize_extract_fail hdec hctor hocr hex]
          exact ⟨fun _ => rfl, fun hs => Bool.noConfusion hs⟩
        · obtain ⟨ft, av⟩ := out
          rw [recognize_success hdec hctor hocr hex]
          exact ⟨fun hs => Bool.noConfusion hs, fun _ => rfl⟩

/-- C10 (witness): a failing request carries an empty `detectedLanguage`; a
succeeding one echoes the caller's code. -/
theorem c10_detected_language_witness :
    (recognize envDecodeFail reqSample).1.detectedLanguage = "" ∧
    (recognize envOk reqSample).1.detectedLanguage = reqSample.language :=
  ⟨(c10_detected_language envDecodeFail reqSample).1 rfl,
   (c10_detected_language envOk reqSample).2 rfl⟩

/-- Setting an index whose old value is known shifts the holder count by the
difference of the two phases' contributions. -/
theorem holders_set (l : List Phase) (i : Nat) (a b : Phase)
    (h : l.get? i = some a) :
    holders (l.set i b) + phaseHolds a = holders l + phaseHolds b := by
  induction l generalizing i with
  | nil => simp at h
  | cons x t ih =>
    cases i with
    | zero =>
      simp only [List.get?] at h
      injection h with h
      subst h
      simp [holders, List.set]
      omega
    | succ n =>
      simp only [List.get?] at h
      have := ih n h
      simp only [List.set, holders, List.map_cons, List.sum_cons] at this ⊢
      omega

/-- One gate step preserves `count + holders`. -/
theorem gstep_preserves {C : Nat} {s s2 : GateState} {l : GLabel}
    (h : gstep s l = some s2) (hi : s.count + holders s.tasks = C) :
    s2.count + holders s2.tasks = C := by
  cases l with
  | request i =>
    simp only [gstep] at h
    split at h
    case _ hg =>
      injection h with h
      subst h
      have := holders_set s.tasks i .idle .waiting hg
      simp only [phaseHolds] at this
      simpa using by omega
    case _ => exact absurd h (by simp)
  | acquire i =>
    simp only [gstep] at h
    split at h
    case _ hg =>
      split at h
      case isTrue hc =>
        injection h with h
        subst h
        have := holders_set s.tasks i .waiting .holding hg
        simp only [phaseHolds] at this
        simpa using by omega
      case isFalse => exact absurd h (by simp)
    case _ => exact absurd h (by simp)
  | release i =>
    simp only [gstep] at h
    split at h
    case _ hg =>
      injection h with h
      subst h
      have := holders_set s.tasks i .holding .done hg
      simp only [phaseHolds] at this
      simpa using by omega
    case _ => exact absurd h (by simp)

/-- A whole interleaving preserves `count + holders`. -/
theorem runTrace_preserves {C : Nat} {s s2 : GateState} {tr : List GLabel}
    (h : runTrace s tr = some s2) (hi : s.count + holders s.tasks = C) :
    s2.count + holders s2.tasks = C := by
  induction tr generalizing s with
  | nil =>
    simp only [runTrace] at h
    injection h with h
    subst h
    exact hi
  | cons l t ih =>
    simp only [runTrace] at h
    split at h
    case _ smid hg => exact ih h (gstep_preserves hg hi)
    case _ => exact absurd h (by simp)

/-- A non-release step never increases the free permit count. -/
theorem gstep_count_le {s s2 : GateState} {l : GLabel}
    (h : gstep s l = some s2) (hl : isReleaseLbl l = false) :
    s2.count ≤ s.count := by
  cases l with
  | request i =>
    simp only [gstep] at h
    split at h
    case _ =>
      injection h with h
      subst h
      exact Nat.le_refl _
    case _ => exact absurd h (by simp)
  | acquire i =>
    simp only [gstep] at h
    split at h
    case _ =>
      split at h
      case isTrue =>
        injection h with h
        subst h
        exact Nat.sub_le _ _
      case isFalse => exact absurd h (by simp)
    case _ => exact absurd h (by simp)
  | release i => exact absurd hl (by simp [isReleaseLbl])

/-- Without any release step, the free permit count cannot grow. -/
theorem runTrace_count_mono {s s2 : GateState} {tr : List GLabel}
    (h : runTrace s tr = some s2) (hn : ∀ l ∈ tr, isReleaseLbl l = false) :
    s2.count ≤ s.count := by
  induction tr generalizing s with
  | nil =>
    simp only [runTrace] at h
    injection h with h
    subst h
    exact Nat.le_refl _
  | cons l t ih =>
    simp only [runTrace] at h
    split at h
    case _ smid hg =>
      have h1 : smid.count ≤ s.count :=
        gstep_count_le hg (hn l (List.mem_cons_self l t))
      have h2 : s2.count ≤ smid.count :=
        ih h fun x hx => hn x (List.mem_cons_of_mem _ hx)
      exact Nat.le_trans h2 h1
    case _ => exact absurd h (by simp)

/-- Running an interleaving splits over list append. -/
theorem runTrace_append (s : GateState) (xs ys : List GLabel) :
    runTrace s (xs ++ ys) = (runTrace s xs).bind (fun m => runTrace m ys) := by
  induction xs generalizing s with
  | nil => simp [runTrace]
  | cons l t ih =>
    simp only [List.cons_append, runTrace]
    cases hg : gstep s l with
    | none => simp
    | some m => simp [ih]

/-- An acquire step requires a free permit and consumes one. -/
theorem gstep_acquire_spec {s s2 : GateState} {i : Nat}
    (h : gstep s (.acquire i) = some s2) :
    0 < s.count ∧ s2.count = s.count - 1 := by
  simp only [gstep] at h
  split at h
  case _ =>
    split at h
    case isTrue hc =>
      injection h with h
      subst h
      exact ⟨hc, rfl⟩
    case isFalse => exact absurd h (by simp)
  case _ => exact absurd h (by simp)

/-- An idle task list holds no permits. -/
theorem holders_replicate_idle (n : Nat) :
    holders (List.replicate n .idle) = 0 := by
  induction n with
  | zero => rfl
  | succ m ih => simp [holders, List.replicate, phaseHolds] at ih ⊢

/-- C7: the concurrency gate (the `asyncio.Semaphore`) never admits more than
its capacity `C` of concurrent holders in any reachable state, and with the
source's capacity 1, two acquisitions in one interleaving are always
separated by a release: the second request's recognition cannot start before
the first request's permit release. -/
theorem c7_gate_serializes :
    (∀ (C n : Nat) (tr : List GLabel) (s : GateState),
        runTrace (gateInit C n) tr = some s → holders s.tasks ≤ C) ∧
    (∀ (n : Nat) (tr1 tr2 tr3 : List GLabel) (i j : Nat) (s : GateState),
        runTrace (gateInit 1 n)
            (tr1 ++ GLabel.acquire i :: (tr2 ++ GLabel.acquire j :: tr3)) =
          some s →
        tr2.any isReleaseLbl = true) := by
  have hinit : ∀ C n : Nat,
      (gateInit C n).count + holders (gateInit C n).tasks = C := by
    intro C n
    simp [gateInit, holders_replicate_idle]
  constructor
  · intro C n tr s h
    have := runTrace_preserves h (hinit C n)
    omega
  · intro n tr1 tr2 tr3 i j s h
    by_contra hno
    have hall : ∀ l ∈ tr2, isReleaseLbl l = false := by
      intro l hl
      cases hb : isReleaseLbl l
      · rfl
      · exact absurd (List.any_eq_true.mpr ⟨l, hl, hb⟩) hno
    rw [runTrace_append] at h
    cases h1 : runTrace (gateInit 1 n) tr1 with
    | none => rw [h1] at h; exact absurd h (by simp)
    | some s1 =>
      rw [h1] at h
      simp only [Option.bind, runTrace] at h
      split at h
      case _ s2 h2 =>
        have hi1 : s1.count + holders s1.tasks = 1 :=
          runTrace_preserves h1 (hinit 1 n)
        have hacq1 := gstep_acquire_spec h2
        have hs2 : s2.count = 0 := by omega
        rw [runTrace_append] at h
        cases h3 : runTrace s2 tr2 with
        | none => rw [h3] at h; exact absurd h (by simp)
        | some s3 =>
          rw [h3] at h
          simp only [Option.bind, runTrace] at h
          split at h
          case _ s4 h4 =>
            have hacq2 := gstep_acquire_spec h4
            have hle : s3.count ≤ s2.count := runTrace_count_mono h3 hall
            omega
          case _ => exact absurd h (by simp)
      case _ => exact absurd h (by simp)

/-- C7 (witness): in the serialized interleaving where task 0 acquires,
releases, and only then task 1 acquires, the invariant applies to the final
state and the any-release check applies to the events between the two
acquisitions. -/
theorem c7_gate_serializes_witness :
    holders [Phase.done, Phase.holding] ≤ 1 ∧
    [GLabel.release 0, GLabel.request 1].any isReleaseLbl = true :=
  ⟨c7_gate_serializes.1 1 2
      [.request 0, .acquire 0, .release 0, .request 1, .acquire 1]
      ⟨0, [Phase.done, Phase.holding]⟩ (by decide),
   c7_gate_serializes.2 2 [.request 0] [.release 0, .request 1] [] 0 1
      ⟨0, [Phase.done, Phase.holding]⟩ (by decide)⟩

end OCRService
